import Mathlib

/-!
Shallow embedding of the Hydra incremental DSG backend
(`src/kimera_dsg_builder/src/incremental_dsg_backend.cpp`) and the batch
building finder (`src/kimera_batch_dsg/src/building_finder.cpp`).

Message payloads (pose-graph nodes/edges, headers, node identifiers, solver
keys) are modelled opaquely as natural numbers; the deformation solver is
modelled as a trace of the mutation calls issued to it.
-/

namespace Hydra

/-- Model of `pose_graph_tools::PoseGraph`: a header plus lists of nodes and
edges.  The payload contents are irrelevant to the backend's buffering logic,
so they are modelled as opaque naturals. -/
structure PoseGraph where
  header : Nat
  nodes  : List Nat
  edges  : List Nat
  deriving Repr, DecidableEq

/-- Embedding of `mergePoseGraphs` (incremental_dsg_backend.cpp lines 25-32):
the header of the accumulator is overwritten by the new message's header and
the new nodes and edges are appended at the end. -/
def mergePoseGraphs (new_graph : PoseGraph) (graph_to_fill : PoseGraph) : PoseGraph :=
  { header := new_graph.header
    nodes  := graph_to_fill.nodes ++ new_graph.nodes
    edges  := graph_to_fill.edges ++ new_graph.edges }

/-- Embedding of `DsgBackend::poseGraphCallback` (lines 480-487) acting on the
pending accumulator (`pose_graph_updates_`): a message either initializes the
accumulator with a copy of itself or is merged into it.
`DsgBackend::deformationGraphCallback` (lines 470-478) performs the identical
update on `deformation_graph_updates_`. -/
def poseGraphCallback (msg : PoseGraph) (acc : Option PoseGraph) : Option PoseGraph :=
  match acc with
  | none => some msg
  | some g => some (mergePoseGraphs msg g)

/-- A sequence of messages ingested in arrival order into the accumulator. -/
def ingestAll (msgs : List PoseGraph) (acc : Option PoseGraph) : Option PoseGraph :=
  msgs.foldl (fun a m => poseGraphCallback m a) acc

/-- Embedding of the drain performed by `DsgBackend::runPgmo` (lines 405-421):
the pending accumulator is taken whole and reset to empty
(`pose_graph_updates_.reset()` / `deformation_graph_updates_.reset()`). -/
def drain (acc : Option PoseGraph) : Option PoseGraph × Option PoseGraph :=
  (acc, none)

/-- Nodes held by the accumulator (empty when no message arrived). -/
def accNodes : Option PoseGraph → List Nat
  | none => []
  | some g => g.nodes

/-- Edges held by the accumulator (empty when no message arrived). -/
def accEdges : Option PoseGraph → List Nat
  | none => []
  | some g => g.edges

/-- Header held by the accumulator, when any message arrived. -/
def accHeader : Option PoseGraph → Option Nat
  | none => none
  | some g => some g.header

/-- Candidate in the shared loop-closure queue (`shared_dsg_->loop_closures`),
as pushed by the front end and drained by
`DsgBackend::addInternalLCDToDeformationGraph` (lines 556-586).  The relative
pose payload is irrelevant to the backend's bookkeeping and is omitted;
`from_node` and `to_node` are the dynamic-node identifiers, looked up in the
shared graph to obtain solver keys. -/
structure LoopClosureCandidate where
  from_node : Nat
  to_node   : Nat
  deriving Repr, DecidableEq

/-- Model of an incoming mesh (`KimeraPgmoMesh`): its vertex count
(`cloud.height * cloud.width` after conversion) plus opaque content. -/
structure Mesh where
  vertex_count : Nat
  payload : Nat
  deriving Repr, DecidableEq

/-- Trace entry for one mutation issued to the deformation solver
(`deformation_graph_`).  Temporary-structure mutations issued by
`addPlacesToDeformationGraph` are modelled separately below by `TempOp`. -/
inductive SolverOp where
  | meshGraphFactors (edges : List Nat)
  | poseGraphFactors (edges : List Nat)
  | betweenFactor (from_key : Nat) (to_key : Nat)
  | optimizeCall
  | deformMeshCall (m : Mesh)
  deriving Repr, DecidableEq

/-- State touched by one `DsgBackend::runPgmo` cycle.  The solver is modelled
by the trace of mutations issued to it (`solver_ops`); configuration flags and
counters mirror the corresponding members of `DsgBackend`. -/
structure BackendState where
  deformation_graph_updates : Option PoseGraph
  pose_graph_updates : Option PoseGraph
  loop_closures : List LoopClosureCandidate
  num_loop_closures : Nat
  have_loopclosures : Bool
  optimize_on_lc : Bool
  call_update_periodically : Bool
  solver_ops : List SolverOp
  latest_mesh : Option Mesh
  have_new_mesh : Bool
  dsg_mesh : Option Mesh
  mesh_update_records : Nat
  deriving Repr, DecidableEq

/-- Embedding of one iteration of the drain loop of
`DsgBackend::addInternalLCDToDeformationGraph` (lines 559-583): the candidate's
node identifiers are resolved to solver keys through the lookup `K` (the
`external_key` attribute of the shared graph's dynamic nodes), a between-factor
is added to the solver, and the loop-closure counter and flag are updated. -/
def lcStep (K : Nat → Nat) (s : BackendState) (lc : LoopClosureCandidate) : BackendState :=
  { s with
    solver_ops := s.solver_ops ++ [SolverOp.betweenFactor (K lc.from_node) (K lc.to_node)]
    num_loop_closures := s.num_loop_closures + 1
    have_loopclosures := true }

/-- Embedding of `DsgBackend::addInternalLCDToDeformationGraph` (lines
556-586): every queued candidate is popped and unconditionally added to the
solver as a between-factor; the returned boolean is `added_new_loop_closure`. -/
def addInternalLCDToDeformationGraph (K : Nat → Nat) (s : BackendState) :
    BackendState × Bool :=
  ({ s.loop_closures.foldl (lcStep K) s with loop_closures := [] },
    !s.loop_closures.isEmpty)

/-- Embedding of `DsgBackend::updateDsgMesh` (lines 588-625).  `D` models the
solver's `deformMesh` output as a function of the input mesh.  The early
returns for a missing mesh and for no new mesh are kept; the `ScopedTimer`
entry recorded for the attempt is modelled by `mesh_update_records`, and the
zero-vertex check drops the mesh before `deformMesh` is invoked. -/
def updateDsgMesh (D : Mesh → Mesh) (s : BackendState) : BackendState :=
  match s.latest_mesh with
  | none => s
  | some m =>
    if !s.have_new_mesh then s
    else
      let s1 := { s with
        mesh_update_records := s.mesh_update_records + 1
        have_new_mesh := false }
      if m.vertex_count = 0 then s1
      else
        { s1 with
          solver_ops := s1.solver_ops ++ [SolverOp.deformMeshCall m]
          dsg_mesh := some (D m) }

/-- Embedding of `DsgBackend::optimize` (lines 627-644): the solver's full
`optimize()` call is issued (recorded in the trace), then the mesh is
re-deformed and the update functions are run (the update functions mutate the
graph layers, not the solver, and are modelled in the layer sections below). -/
def optimize (D : Mesh → Mesh) (s : BackendState) : BackendState :=
  updateDsgMesh D { s with solver_ops := s.solver_ops ++ [SolverOp.optimizeCall] }

/-- Embedding of the pgmo critical section of `DsgBackend::runPgmo` (lines
402-424) restricted to the two update buffers: each non-empty accumulator is
processed into the solver (`processIncrementalMeshGraph` /
`processIncrementalPoseGraph`, whose edges become new factors), reset, and
`have_graph_updates` is set.  The C++ declares `have_graph_updates` without an
initializer and assigns it only in these two branches; it is modelled as
`false` on the path where neither branch runs. -/
def drainGraphUpdates (s : BackendState) : BackendState × Bool :=
  let step1 : BackendState × Bool :=
    match s.deformation_graph_updates with
    | none => (s, false)
    | some g =>
        ({ s with
            solver_ops := s.solver_ops ++ [SolverOp.meshGraphFactors g.edges]
            deformation_graph_updates := none }, true)
  match step1.1.pose_graph_updates with
  | none => step1
  | some g =>
      ({ step1.1 with
          solver_ops := step1.1.solver_ops ++ [SolverOp.poseGraphFactors g.edges]
          pose_graph_updates := none }, true)

/-- Summary of one backend cycle, used to state the claims: whether the update
buffers produced factors, how many loop-closure candidates were drained, and
whether the full optimize step ran. -/
structure CycleReport where
  have_graph_updates : Bool
  drained_lcs : Nat
  ran_optimize : Bool
  deriving Repr, DecidableEq

/-- Embedding of lines 430-434 of `DsgBackend::runPgmo`: when the loop-closure
counter is positive the `have_loopclosures_` flag is raised. -/
def refreshLoopClosureFlag (s : BackendState) : BackendState :=
  if s.num_loop_closures > 0 then { s with have_loopclosures := true } else s

/-- Embedding of the branch at lines 443-450 of `DsgBackend::runPgmo`: the
full optimize step runs when `have_graph_updates && optimize_on_lc_ &&
have_loopclosures_`; otherwise, when periodic updates are enabled, the mesh is
re-deformed with already-computed values and the update functions run; the
returned boolean records whether the full optimize step ran. -/
def cycleBranch (D : Mesh → Mesh) (have_graph_updates : Bool) (s : BackendState) :
    BackendState × Bool :=
  if have_graph_updates && s.optimize_on_lc && s.have_loopclosures then
    (optimize D s, true)
  else if s.call_update_periodically then
    (updateDsgMesh D s, false)
  else (s, false)

/-- Embedding of one iteration of `DsgBackend::runPgmo` (lines 394-462):
drain the update buffers, drain the internal loop-closure queue, refresh the
loop-closure flag from the counter, then take the optimize/refresh branch. -/
def runPgmoCycle (K : Nat → Nat) (D : Mesh → Mesh) (s : BackendState) :
    BackendState × CycleReport :=
  let drained := drainGraphUpdates s
  let s3 := (addInternalLCDToDeformationGraph K drained.1).1
  let s4 := refreshLoopClosureFlag s3
  let branch := cycleBranch D drained.2 s4
  (branch.1,
    { have_graph_updates := drained.2
      drained_lcs := s.loop_closures.length
      ran_optimize := branch.2 })

/-- Messages delivered by the producer threads between two backend cycles:
mesh-factor messages, pose-factor messages, and loop-closure candidates. -/
structure CycleInput where
  mesh_msgs : List PoseGraph
  pose_msgs : List PoseGraph
  lcd_candidates : List LoopClosureCandidate
  deriving Repr, DecidableEq

/-- Producer-side delivery before a cycle: both callbacks ingest their
messages into the pending accumulators (lines 470-487) and the front end
pushes loop-closure candidates onto the shared queue. -/
def deliver (inp : CycleInput) (s : BackendState) : BackendState :=
  { s with
    deformation_graph_updates := ingestAll inp.mesh_msgs s.deformation_graph_updates
    pose_graph_updates := ingestAll inp.pose_msgs s.pose_graph_updates
    loop_closures := s.loop_closures ++ inp.lcd_candidates }

/-- A run of several backend cycles, each preceded by message delivery.  The
second component accumulates the total number of loop-closure candidates ever
drained from the queue (ghost bookkeeping for the counter claims). -/
def runCycles (K : Nat → Nat) (D : Mesh → Mesh) (env : List CycleInput)
    (p : BackendState × Nat) : BackendState × Nat :=
  env.foldl
    (fun q inp =>
      let out := runPgmoCycle K D (deliver inp q.1)
      (out.1, q.2 + out.2.drained_lcs))
    p

/-- Three-dimensional position, with exact rational coordinates standing in
for `Eigen::Vector3d`. -/
structure Vec3 where
  x : ℚ
  y : ℚ
  z : ℚ
  deriving Repr, DecidableEq

/-- Componentwise vector addition. -/
def Vec3.add (a b : Vec3) : Vec3 :=
  { x := a.x + b.x, y := a.y + b.y, z := a.z + b.z }

/-- The zero vector (`Eigen::Vector3d::Zero()`, and the default-initialized
`pcl::PointXYZ`). -/
def Vec3.zero : Vec3 :=
  { x := 0, y := 0, z := 0 }

/-- Division of a vector by a node count (`centroid /= rooms_layer.numNodes()`). -/
def Vec3.divNat (a : Vec3) (n : Nat) : Vec3 :=
  { x := a.x / n, y := a.y / n, z := a.z / n }

/-- Sum of a list of positions, starting from zero. -/
def vecSum (l : List Vec3) : Vec3 :=
  l.foldl Vec3.add Vec3.zero

/-- Mean of the room positions: the accumulated sum divided by the number of
rooms (`DsgBackend::updateBuildingNode` lines 724-728; the batch
`findBuildings` computes the same mean through `pcl::CentroidPoint`). -/
def roomsMean (rooms : List (Nat × Vec3)) : Vec3 :=
  Vec3.divNat (vecSum (rooms.map Prod.snd)) rooms.length

/-- Set-like insertion into a node-id list, modelling insertion into an
`std::unordered_set` and the idempotent `insertEdge` re-insertion. -/
def insertNew (s : List Nat) (a : Nat) : List Nat :=
  if a ∈ s then s else s ++ [a]

/-- The slice of the private scene graph touched by
`DsgBackend::updateBuildingNode`: the rooms layer (node id with position), the
single building node `NodeSymbol('B', 0)` modelled by its optional position,
and the building-to-room child edges. -/
structure BuildingGraph where
  rooms : List (Nat × Vec3)
  building : Option Vec3
  building_children : List Nat
  deriving Repr, DecidableEq

/-- Embedding of `DsgBackend::updateBuildingNode` (lines 710-746): when the
rooms layer is empty any existing building node is removed (`removeNode`
deletes the node and its edges); otherwise the building node is created with
the rooms' mean position or has its position overwritten in place, and every
room is (re-)linked as a child of the building node. -/
def updateBuildingNode (g : BuildingGraph) : BuildingGraph :=
  if g.rooms.isEmpty then
    { g with building := none, building_children := [] }
  else
    { g with
      building := some (roomsMean g.rooms)
      building_children := g.rooms.foldl (fun cs p => insertNew cs p.1) g.building_children }

/-- The slice of the batch scene graph touched by `findBuildings`
(building_finder.cpp): rooms layer, buildings layer (node id with position),
and building-to-room edges. -/
structure BatchSceneGraph where
  rooms : List (Nat × Vec3)
  buildings : List (Nat × Vec3)
  building_edges : List (Nat × Nat)
  deriving Repr, DecidableEq

/-- The batch building identifier `NodeSymbol('B', 1u)`, modelled by its
index. -/
def batchBuildingId : Nat := 1

/-- Embedding of `findBuildings` (building_finder.cpp lines 11-42): the
building centroid is the mean of the room positions — when the rooms layer is
empty, `pcl::CentroidPoint::get` leaves the default-initialized point
untouched, so the centroid degenerates to the zero vector — and the building
node is emplaced unconditionally, with every room linked to it by an edge. -/
def findBuildings (g : BatchSceneGraph) : BatchSceneGraph :=
  let centroid := if g.rooms.isEmpty then Vec3.zero else roomsMean g.rooms
  { g with
    buildings := g.buildings ++ [(batchBuildingId, centroid)]
    building_edges :=
      g.building_edges ++ g.rooms.map (fun r => (batchBuildingId, r.1)) }

/-- Claim C5 witness data: a private graph with two rooms and no building
node yet. -/
def exBuildGraphC5 : BuildingGraph :=
  { rooms := [(1, { x := 0, y := 0, z := 0 }), (2, { x := 2, y := 0, z := 4 })]
    building := none
    building_children := [] }

/-- Claim C10 witness data: a batch graph whose rooms layer exists but holds
zero nodes. -/
def exBatchEmptyC10 : BatchSceneGraph :=
  { rooms := [], buildings := [], building_edges := [] }

/-- Trace entry for one temporary-structure mutation issued to the
deformation solver by `DsgBackend::addPlacesToDeformationGraph`
(`clearTemporaryStructures`, `addNewTempNode`, `addTempNodeValence`,
`addNewTempBetween`; pose payloads are irrelevant to the claims and
omitted). -/
inductive TempOp where
  | clearTemporaries
  | tempNode (id : Nat)
  | tempValence (id : Nat) (connections : List Nat)
  | tempBetween (source : Nat) (target : Nat)
  deriving Repr, DecidableEq

/-- A node of the places-layer snapshot (`shared_places_copy_`): identifier,
position, and the `pcl_mesh_connections` attribute. -/
structure PlaceNode where
  id : Nat
  position : Vec3
  pcl_mesh_connections : List Nat
  deriving Repr, DecidableEq

/-- The result of `getMinimumSpanningEdges` over the places snapshot: the set
of leaf node ids and the list of spanning edges.  The MST computation itself
lives in `minimum_spanning_tree.h` (not part of the sources under
verification) and is treated as an input here. -/
structure MstInfo where
  leaves : List Nat
  edges : List (Nat × Nat)
  deriving Repr, DecidableEq

/-- Embedding of the per-place body of the loop at lines 527-544: one
temporary node is always added; a temporary valence constraint follows only
when the place is an MST leaf with non-empty mesh connections. -/
def placeStep (mst : MstInfo) (acc : List TempOp) (node : PlaceNode) : List TempOp :=
  let acc1 := acc ++ [TempOp.tempNode node.id]
  if !(mst.leaves.contains node.id) then acc1
  else if node.pcl_mesh_connections.isEmpty then acc1
  else acc1 ++ [TempOp.tempValence node.id node.pcl_mesh_connections]

/-- Embedding of `DsgBackend::addPlacesToDeformationGraph` (lines 515-554):
with an empty places snapshot the function warns and returns without touching
the solver; otherwise prior temporary structures are cleared first, the
per-place loop runs, and one temporary between-factor is added per
minimum-spanning-tree edge. -/
def addPlacesToDeformationGraph (places : List PlaceNode) (mst : MstInfo)
    (ops : List TempOp) : List TempOp :=
  if places.isEmpty then ops
  else
    (places.foldl (placeStep mst) (ops ++ [TempOp.clearTemporaries])) ++
      mst.edges.map (fun e => TempOp.tempBetween e.1 e.2)

/-- The condition under which a place receives a temporary valence
constraint: it is an MST leaf and its mesh-connection list is non-empty. -/
def wantsValence (mst : MstInfo) (n : PlaceNode) : Bool :=
  mst.leaves.contains n.id && !n.pcl_mesh_connections.isEmpty

/-- The temporary operations contributed by a single place node. -/
def perPlaceOps (mst : MstInfo) (n : PlaceNode) : List TempOp :=
  TempOp.tempNode n.id ::
    (if wantsValence mst n then [TempOp.tempValence n.id n.pcl_mesh_connections]
     else [])

/-- Recognizer for temporary-node additions. -/
def isTempNodeOp : TempOp → Bool
  | TempOp.tempNode _ => true
  | _ => false

/-- Recognizer for temporary valence constraints. -/
def isValenceOp : TempOp → Bool
  | TempOp.tempValence _ _ => true
  | _ => false

/-- Recognizer for temporary between-factors. -/
def isBetweenOp : TempOp → Bool
  | TempOp.tempBetween _ _ => true
  | _ => false

/-- Claim C6 witness data: three places, of which 1 and 3 are MST leaves and
place 2 has no mesh connections. -/
def exPlacesC6 : List PlaceNode :=
  [{ id := 1, position := { x := 0, y := 0, z := 0 }, pcl_mesh_connections := [100] },
   { id := 2, position := { x := 1, y := 0, z := 0 }, pcl_mesh_connections := [] },
   { id := 3, position := { x := 2, y := 0, z := 0 },
     pcl_mesh_connections := [101, 102] }]

/-- Claim C6 witness data: the MST over the three places. -/
def exMstC6 : MstInfo := { leaves := [1, 3], edges := [(1, 2), (2, 3)] }

/-- A node of the places layer as seen by room detection: its identifier and
its optional parent (a room node id). -/
structure PlaceEntry where
  id : Nat
  parent : Option Nat
  deriving Repr, DecidableEq

/-- A node of the rooms layer: its identifier and its children (place node
ids). -/
structure RoomEntry where
  id : Nat
  children : List Nat
  deriving Repr, DecidableEq

/-- The slice of the private scene graph read by
`getNodesForRoomDetection` and `storeUnlabeledPlaces`: the rooms layer and the
places layer. -/
structure RoomDetectionGraph where
  rooms : List RoomEntry
  places : List PlaceEntry
  deriving Repr, DecidableEq

/-- Identifiers present in the places layer (`places.hasNode`). -/
def placeIds (g : RoomDetectionGraph) : List Nat :=
  g.places.map PlaceEntry.id

/-- Embedding of `DsgBackend::getNodesForRoomDetection` (lines 654-677): the
active set starts from the latest (newly activated) places, adds the children
of every room node, then adds every previously-unlabeled place that is still
present in the places layer. -/
def getNodesForRoomDetection (g : RoomDetectionGraph) (latest_places : List Nat)
    (unlabeled : List Nat) : List Nat :=
  let active0 := latest_places.foldl insertNew []
  let active1 := g.rooms.foldl (fun acc r => r.children.foldl insertNew acc) active0
  unlabeled.foldl
    (fun acc n => if n ∈ placeIds g then insertNew acc n else acc) active1

/-- Whether an active node is kept by `storeUnlabeledPlaces`: it must still be
a node of the places layer (`hasNode`) and its entry must have no parent
(`hasParent`). -/
def keepUnlabeled (g : RoomDetectionGraph) (n : Nat) : Bool :=
  match g.places.find? (fun p => p.id == n) with
  | none => false
  | some p => !p.parent.isSome

/-- Embedding of `DsgBackend::storeUnlabeledPlaces` (lines 679-696): the
persisted unlabeled set is rebuilt from scratch as the active nodes that are
still present in the places layer and have no parent. -/
def storeUnlabeledPlaces (g : RoomDetectionGraph) (active : List Nat) : List Nat :=
  active.foldl
    (fun acc n => if keepUnlabeled g n then insertNew acc n else acc) []

/-- Claim C7 witness data: one room with two child places, two unassigned
places (3 and 4). -/
def exRoomGraphC7 : RoomDetectionGraph :=
  { rooms := [{ id := 50, children := [1, 2] }]
    places := [{ id := 1, parent := some 50 }, { id := 2, parent := some 50 },
               { id := 3, parent := none }, { id := 4, parent := none }] }

/-- Claim C9 witness data: two pose-graph messages arriving in order. -/
def exMsgsC9 : List PoseGraph :=
  [{ header := 1, nodes := [10], edges := [] },
   { header := 2, nodes := [11, 12], edges := [7] }]

/-- Claim C1, counterexample state: no pending buffer updates, one queued
internal loop-closure candidate, optimization-on-loop-closure enabled. -/
def exLcdOnlyC1 : BackendState :=
  { deformation_graph_updates := none
    pose_graph_updates := none
    loop_closures := [{ from_node := 1, to_node := 2 }]
    num_loop_closures := 0
    have_loopclosures := false
    optimize_on_lc := true
    call_update_periodically := false
    solver_ops := []
    latest_mesh := none
    have_new_mesh := false
    dsg_mesh := none
    mesh_update_records := 0 }

/-- Claim C2, counterexample state: no buffer updates pending, periodic
updates disabled, but one internal loop-closure candidate queued. -/
def exLcdOnlyC2 : BackendState :=
  { deformation_graph_updates := none
    pose_graph_updates := none
    loop_closures := [{ from_node := 3, to_node := 4 }]
    num_loop_closures := 0
    have_loopclosures := false
    optimize_on_lc := true
    call_update_periodically := false
    solver_ops := []
    latest_mesh := none
    have_new_mesh := false
    dsg_mesh := none
    mesh_update_records := 0 }

/-- Claim C2 witness state: a quiescent backend with some prior solver trace
and a positive loop-closure counter. -/
def exIdleC2 : BackendState :=
  { deformation_graph_updates := none
    pose_graph_updates := none
    loop_closures := []
    num_loop_closures := 2
    have_loopclosures := true
    optimize_on_lc := true
    call_update_periodically := false
    solver_ops := [SolverOp.optimizeCall, SolverOp.betweenFactor 5 6]
    latest_mesh := none
    have_new_mesh := false
    dsg_mesh := none
    mesh_update_records := 1 }

/-- Claim C8 witness state: a pending zero-vertex mesh. -/
def exEmptyMeshC8 : BackendState :=
  { deformation_graph_updates := none
    pose_graph_updates := none
    loop_closures := []
    num_loop_closures := 0
    have_loopclosures := false
    optimize_on_lc := true
    call_update_periodically := true
    solver_ops := [SolverOp.optimizeCall]
    latest_mesh := some { vertex_count := 0, payload := 9 }
    have_new_mesh := true
    dsg_mesh := some { vertex_count := 12, payload := 3 }
    mesh_update_records := 4 }

lemma ingestAll_nil (acc : Option PoseGraph) : ingestAll [] acc = acc := rfl

lemma ingestAll_cons (m : PoseGraph) (rest : List PoseGraph) (acc : Option PoseGraph) :
    ingestAll (m :: rest) acc = ingestAll rest (poseGraphCallback m acc) := rfl

lemma ingestAll_some_nodes (msgs : List PoseGraph) (g : PoseGraph) :
    accNodes (ingestAll msgs (some g)) = g.nodes ++ (msgs.map PoseGraph.nodes).flatten := by
  induction msgs generalizing g with
  | nil => simp [ingestAll_nil, accNodes]
  | cons m rest ih =>
      rw [ingestAll_cons]
      show accNodes (ingestAll rest (some (mergePoseGraphs m g))) = _
      rw [ih (mergePoseGraphs m g)]
      simp [mergePoseGraphs, List.append_assoc]

lemma ingestAll_some_edges (msgs : List PoseGraph) (g : PoseGraph) :
    accEdges (ingestAll msgs (some g)) = g.edges ++ (msgs.map PoseGraph.edges).flatten := by
  induction msgs generalizing g with
  | nil => simp [ingestAll_nil, accEdges]
  | cons m rest ih =>
      rw [ingestAll_cons]
      show accEdges (ingestAll rest (some (mergePoseGraphs m g))) = _
      rw [ih (mergePoseGraphs m g)]
      simp [mergePoseGraphs, List.append_assoc]

lemma ingestAll_nodes (msgs : List PoseGraph) :
    accNodes (ingestAll msgs none) = (msgs.map PoseGraph.nodes).flatten := by
  cases msgs with
  | nil => simp [ingestAll_nil, accNodes]
  | cons m rest =>
      rw [ingestAll_cons]
      show accNodes (ingestAll rest (some m)) = _
      rw [ingestAll_some_nodes rest m]
      simp

lemma ingestAll_edges (msgs : List PoseGraph) :
    accEdges (ingestAll msgs none) = (msgs.map PoseGraph.edges).flatten := by
  cases msgs with
  | nil => simp [ingestAll_nil, accEdges]
  | cons m rest =>
      rw [ingestAll_cons]
      show accEdges (ingestAll rest (some m)) = _
      rw [ingestAll_some_edges rest m]
      simp

lemma ingestAll_some_header (msgs : List PoseGraph) (g : PoseGraph) :
    accHeader (ingestAll msgs (some g)) =
      some ((msgs.getLast?.map PoseGraph.header).getD g.header) := by
  induction msgs generalizing g with
  | nil => simp [ingestAll_nil, accHeader]
  | cons m rest ih =>
      rw [ingestAll_cons]
      show accHeader (ingestAll rest (some (mergePoseGraphs m g))) = _
      rw [ih (mergePoseGraphs m g)]
      cases hr : rest with
      | nil => simp [mergePoseGraphs]
      | cons r rs =>
          subst hr
          have hsome := List.getLast?_eq_getLast (r :: rs) (by simp)
          simp [List.getLast?_cons_cons, hsome]

lemma getLast_cons_getD :
    ∀ (rest : List PoseGraph) (m : PoseGraph) (hne : m :: rest ≠ []),
      (m :: rest).getLast hne = rest.getLast?.getD m
  | [], _, _ => rfl
  | r :: rs, m, _ => by
      rw [List.getLast?_eq_getLast (r :: rs) (by simp), Option.getD_some]
      simp [List.getLast_cons]

lemma ingestAll_header (msgs : List PoseGraph) (hne : msgs ≠ []) :
    accHeader (ingestAll msgs none) = some (msgs.getLast hne).header := by
  cases msgs with
  | nil => exact absurd rfl hne
  | cons m rest =>
      rw [ingestAll_cons]
      show accHeader (ingestAll rest (some m)) = _
      rw [ingestAll_some_header rest m, getLast_cons_getD rest m hne]
      cases h : rest.getLast? <;> simp

lemma runPgmoCycle_eq (K : Nat → Nat) (D : Mesh → Mesh) (s : BackendState) :
    runPgmoCycle K D s =
      ((cycleBranch D (drainGraphUpdates s).2
          (refreshLoopClosureFlag
            (addInternalLCDToDeformationGraph K (drainGraphUpdates s).1).1)).1,
        { have_graph_updates := (drainGraphUpdates s).2
          drained_lcs := s.loop_closures.length
          ran_optimize := (cycleBranch D (drainGraphUpdates s).2
            (refreshLoopClosureFlag
              (addInternalLCDToDeformationGraph K (drainGraphUpdates s).1).1)).2 }) := rfl

lemma lcFold_num (K : Nat → Nat) (q : List LoopClosureCandidate) (s : BackendState) :
    (q.foldl (lcStep K) s).num_loop_closures = s.num_loop_closures + q.length := by
  induction q generalizing s with
  | nil => simp
  | cons lc rest ih =>
      rw [List.foldl_cons, ih]
      simp [lcStep]
      omega

lemma lcFold_ops (K : Nat → Nat) (q : List LoopClosureCandidate) (s : BackendState) :
    (q.foldl (lcStep K) s).solver_ops =
      s.solver_ops ++ q.map
        (fun lc => SolverOp.betweenFactor (K lc.from_node) (K lc.to_node)) := by
  induction q generalizing s with
  | nil => simp
  | cons lc rest ih =>
      rw [List.foldl_cons, ih]
      simp [lcStep]

lemma lcFold_flag (K : Nat → Nat) (q : List LoopClosureCandidate) (s : BackendState) :
    (q.foldl (lcStep K) s).have_loopclosures =
      (s.have_loopclosures || !q.isEmpty) := by
  induction q generalizing s with
  | nil => simp
  | cons lc rest ih =>
      rw [List.foldl_cons, ih]
      simp [lcStep]

lemma lcFold_preserved (K : Nat → Nat) (q : List LoopClosureCandidate) (s : BackendState) :
    (q.foldl (lcStep K) s).loop_closures = s.loop_closures ∧
    (q.foldl (lcStep K) s).deformation_graph_updates = s.deformation_graph_updates ∧
    (q.foldl (lcStep K) s).pose_graph_updates = s.pose_graph_updates ∧
    (q.foldl (lcStep K) s).optimize_on_lc = s.optimize_on_lc ∧
    (q.foldl (lcStep K) s).call_update_periodically = s.call_update_periodically ∧
    (q.foldl (lcStep K) s).latest_mesh = s.latest_mesh ∧
    (q.foldl (lcStep K) s).have_new_mesh = s.have_new_mesh ∧
    (q.foldl (lcStep K) s).dsg_mesh = s.dsg_mesh ∧
    (q.foldl (lcStep K) s).mesh_update_records = s.mesh_update_records := by
  induction q generalizing s with
  | nil => simp
  | cons lc rest ih =>
      rw [List.foldl_cons]
      simpa [lcStep] using ih (lcStep K s lc)

lemma drainGraphUpdates_bool (s : BackendState) :
    (drainGraphUpdates s).2 =
      (s.deformation_graph_updates.isSome || s.pose_graph_updates.isSome) := by
  unfold drainGraphUpdates
  cases hd : s.deformation_graph_updates <;> cases hp : s.pose_graph_updates <;>
    simp [hd, hp]

lemma drainGraphUpdates_preserved (s : BackendState) :
    (drainGraphUpdates s).1.loop_closures = s.loop_closures ∧
    (drainGraphUpdates s).1.num_loop_closures = s.num_loop_closures ∧
    (drainGraphUpdates s).1.have_loopclosures = s.have_loopclosures ∧
    (drainGraphUpdates s).1.optimize_on_lc = s.optimize_on_lc ∧
    (drainGraphUpdates s).1.call_update_periodically = s.call_update_periodically ∧
    (drainGraphUpdates s).1.latest_mesh = s.latest_mesh ∧
    (drainGraphUpdates s).1.have_new_mesh = s.have_new_mesh ∧
    (drainGraphUpdates s).1.dsg_mesh = s.dsg_mesh ∧
    (drainGraphUpdates s).1.mesh_update_records = s.mesh_update_records := by
  unfold drainGraphUpdates
  cases hd : s.deformation_graph_updates <;> cases hp : s.pose_graph_updates <;>
    simp [hd, hp]

lemma drainGraphUpdates_none (s : BackendState)
    (h1 : s.deformation_graph_updates = none) (h2 : s.pose_graph_updates = none) :
    drainGraphUpdates s = (s, false) := by
  unfold drainGraphUpdates
  simp [h1, h2]

lemma addInternalLCD_num (K : Nat → Nat) (s : BackendState) :
    (addInternalLCDToDeformationGraph K s).1.num_loop_closures =
      s.num_loop_closures + s.loop_closures.length := by
  unfold addInternalLCDToDeformationGraph
  simp [lcFold_num]

lemma addInternalLCD_ops (K : Nat → Nat) (s : BackendState) :
    (addInternalLCDToDeformationGraph K s).1.solver_ops =
      s.solver_ops ++ s.loop_closures.map
        (fun lc => SolverOp.betweenFactor (K lc.from_node) (K lc.to_node)) := by
  unfold addInternalLCDToDeformationGraph
  simp [lcFold_ops]

lemma addInternalLCD_flag (K : Nat → Nat) (s : BackendState) :
    (addInternalLCDToDeformationGraph K s).1.have_loopclosures =
      (s.have_loopclosures || !s.loop_closures.isEmpty) := by
  unfold addInternalLCDToDeformationGraph
  simp [lcFold_flag]

lemma addInternalLCD_preserved (K : Nat → Nat) (s : BackendState) :
    (addInternalLCDToDeformationGraph K s).1.optimize_on_lc = s.optimize_on_lc ∧
    (addInternalLCDToDeformationGraph K s).1.call_update_periodically =
      s.call_update_periodically ∧
    (addInternalLCDToDeformationGraph K s).1.latest_mesh = s.latest_mesh ∧
    (addInternalLCDToDeformationGraph K s).1.have_new_mesh = s.have_new_mesh ∧
    (addInternalLCDToDeformationGraph K s).1.dsg_mesh = s.dsg_mesh ∧
    (addInternalLCDToDeformationGraph K s).1.mesh_update_records =
      s.mesh_update_records := by
  unfold addInternalLCDToDeformationGraph
  have h := lcFold_preserved K s.loop_closures s
  simp only []
  exact ⟨h.2.2.2.1, h.2.2.2.2.1, h.2.2.2.2.2.1, h.2.2.2.2.2.2.1,
    h.2.2.2.2.2.2.2.1, h.2.2.2.2.2.2.2.2⟩

lemma refreshFlag_preserved (s : BackendState) :
    (refreshLoopClosureFlag s).num_loop_closures = s.num_loop_closures ∧
    (refreshLoopClosureFlag s).loop_closures = s.loop_closures ∧
    (refreshLoopClosureFlag s).optimize_on_lc = s.optimize_on_lc ∧
    (refreshLoopClosureFlag s).call_update_periodically = s.call_update_periodically ∧
    (refreshLoopClosureFlag s).solver_ops = s.solver_ops := by
  unfold refreshLoopClosureFlag
  split <;> simp

lemma updateDsgMesh_counters (D : Mesh → Mesh) (s : BackendState) :
    (updateDsgMesh D s).num_loop_closures = s.num_loop_closures ∧
    (updateDsgMesh D s).have_loopclosures = s.have_loopclosures ∧
    (updateDsgMesh D s).loop_closures = s.loop_closures ∧
    (updateDsgMesh D s).optimize_on_lc = s.optimize_on_lc ∧
    (updateDsgMesh D s).call_update_periodically = s.call_update_periodically := by
  unfold updateDsgMesh
  cases hm : s.latest_mesh with
  | none => simp
  | some m =>
      cases hn : s.have_new_mesh with
      | false => simp [hn]
      | true =>
          by_cases hv : m.vertex_count = 0 <;> simp [hn, hv]

lemma optimize_counters (D : Mesh → Mesh) (s : BackendState) :
    (optimize D s).num_loop_closures = s.num_loop_closures ∧
    (optimize D s).have_loopclosures = s.have_loopclosures ∧
    (optimize D s).loop_closures = s.loop_closures := by
  unfold optimize
  have h := updateDsgMesh_counters D
    { s with solver_ops := s.solver_ops ++ [SolverOp.optimizeCall] }
  exact ⟨h.1, h.2.1, h.2.2.1⟩

lemma cycleBranch_counters (D : Mesh → Mesh) (hg : Bool) (s : BackendState) :
    (cycleBranch D hg s).1.num_loop_closures = s.num_loop_closures ∧
    (cycleBranch D hg s).1.have_loopclosures = s.have_loopclosures ∧
    (cycleBranch D hg s).1.loop_closures = s.loop_closures := by
  unfold cycleBranch
  split
  · exact optimize_counters D s
  · split
    · have h := updateDsgMesh_counters D s
      exact ⟨h.1, h.2.1, h.2.2.1⟩
    · exact ⟨rfl, rfl, rfl⟩

lemma cycleBranch_bool (D : Mesh → Mesh) (hg : Bool) (s : BackendState) :
    (cycleBranch D hg s).2 = (hg && s.optimize_on_lc && s.have_loopclosures) := by
  unfold cycleBranch
  split
  · next h => exact h.symm
  · next h =>
      split <;> simp [eq_false_of_ne_true h]

lemma runPgmoCycle_num (K : Nat → Nat) (D : Mesh → Mesh) (s : BackendState) :
    (runPgmoCycle K D s).1.num_loop_closures =
      s.num_loop_closures + s.loop_closures.length := by
  rw [runPgmoCycle_eq]
  have hb := cycleBranch_counters D (drainGraphUpdates s).2
    (refreshLoopClosureFlag (addInternalLCDToDeformationGraph K (drainGraphUpdates s).1).1)
  have hr := refreshFlag_preserved
    (addInternalLCDToDeformationGraph K (drainGraphUpdates s).1).1
  have ha := addInternalLCD_num K (drainGraphUpdates s).1
  have hd := drainGraphUpdates_preserved s
  simp only []
  rw [hb.1, hr.1, ha, hd.2.1, hd.1]

lemma runCycles_cons (K : Nat → Nat) (D : Mesh → Mesh) (inp : CycleInput)
    (rest : List CycleInput) (p : BackendState × Nat) :
    runCycles K D (inp :: rest) p =
      runCycles K D rest
        ((runPgmoCycle K D (deliver inp p.1)).1,
          p.2 + (runPgmoCycle K D (deliver inp p.1)).2.drained_lcs) := rfl

lemma runCycles_num (K : Nat → Nat) (D : Mesh → Mesh) (env : List CycleInput) :
    ∀ p : BackendState × Nat,
      (runCycles K D env p).1.num_loop_closures + p.2 =
        p.1.num_loop_closures + (runCycles K D env p).2 := by
  induction env with
  | nil => intro p; rfl
  | cons inp rest ih =>
      intro p
      rw [runCycles_cons]
      have h := ih ((runPgmoCycle K D (deliver inp p.1)).1,
        p.2 + (runPgmoCycle K D (deliver inp p.1)).2.drained_lcs)
      have hout : (runPgmoCycle K D (deliver inp p.1)).1.num_loop_closures =
          p.1.num_loop_closures + (deliver inp p.1).loop_closures.length := by
        rw [runPgmoCycle_num]; rfl
      have hd : (runPgmoCycle K D (deliver inp p.1)).2.drained_lcs =
          (deliver inp p.1).loop_closures.length := rfl
      simp only [] at h
      omega

lemma cycleBranch_idle (D : Mesh → Mesh) (s : BackendState)
    (hper : s.call_update_periodically = false) :
    cycleBranch D false s = (s, false) := by
  unfold cycleBranch
  simp [hper]

/-- C1 is false as stated: in this cycle factors WERE added to the solver
(a between-factor from the drained internal loop-closure candidate, so the
solver trace grew), optimization-on-loop-closure is enabled, and a loop
closure has been accepted, yet the full optimize step does not run, because
`have_graph_updates` is set only by the two update buffers (lines 405-421)
and not by `addInternalLCDToDeformationGraph`. -/
theorem hydra_C1_counterexample :
    (runPgmoCycle id id exLcdOnlyC1).1.solver_ops ≠ exLcdOnlyC1.solver_ops ∧
    (runPgmoCycle id id exLcdOnlyC1).2.drained_lcs = 1 ∧
    exLcdOnlyC1.optimize_on_lc = true ∧
    (runPgmoCycle id id exLcdOnlyC1).1.have_loopclosures = true ∧
    (runPgmoCycle id id exLcdOnlyC1).2.ran_optimize = false := by
  decide

/-- Claim C1 as amended: the full optimize step runs iff a mesh-factor or
pose-factor buffer update was drained this cycle (factors added by draining
internal loop-closure candidates do NOT count) AND optimization-on-loop-closure
is enabled AND at least one loop closure has ever been accepted. -/
theorem hydra_C1_theorem (K : Nat → Nat) (D : Mesh → Mesh) (s : BackendState) :
    (runPgmoCycle K D s).2.ran_optimize =
      ((s.deformation_graph_updates.isSome || s.pose_graph_updates.isSome) &&
        s.optimize_on_lc && (runPgmoCycle K D s).1.have_loopclosures) := by
  show (cycleBranch D (drainGraphUpdates s).2
      (refreshLoopClosureFlag
        (addInternalLCDToDeformationGraph K (drainGraphUpdates s).1).1)).2 =
    ((s.deformation_graph_updates.isSome || s.pose_graph_updates.isSome) &&
      s.optimize_on_lc &&
      (cycleBranch D (drainGraphUpdates s).2
        (refreshLoopClosureFlag
          (addInternalLCDToDeformationGraph K (drainGraphUpdates s).1).1)).1.have_loopclosures)
  rw [cycleBranch_bool,
    (cycleBranch_counters D (drainGraphUpdates s).2
      (refreshLoopClosureFlag
        (addInternalLCDToDeformationGraph K (drainGraphUpdates s).1).1)).2.1,
    drainGraphUpdates_bool]
  have holc : (refreshLoopClosureFlag
      (addInternalLCDToDeformationGraph K (drainGraphUpdates s).1).1).optimize_on_lc =
      s.optimize_on_lc := by
    rw [(refreshFlag_preserved _).2.2.1, (addInternalLCD_preserved K _).1,
      (drainGraphUpdates_preserved s).2.2.2.1]
  rw [holc]

/-- C2 is false as stated: in a cycle with no mesh-factor and no pose-factor
updates and periodic updates disabled, the solver state can still change,
because queued internal loop-closure candidates are drained and added as
between-factors (lines 556-586) regardless of the two update buffers. -/
theorem hydra_C2_counterexample :
    exLcdOnlyC2.deformation_graph_updates = none ∧
    exLcdOnlyC2.pose_graph_updates = none ∧
    exLcdOnlyC2.call_update_periodically = false ∧
    (runPgmoCycle id id exLcdOnlyC2).2.ran_optimize = false ∧
    (runPgmoCycle id id exLcdOnlyC2).1.solver_ops ≠ exLcdOnlyC2.solver_ops := by
  decide

/-- Claim C2 as amended: a cycle with no mesh-factor and no pose-factor
updates since the last drain, periodic updates disabled, AND an empty internal
loop-closure queue performs no solver work: the optimize step does not run and
the solver trace is unchanged (in particular neither `optimize()` nor
`deformMesh()` is invoked, as each would append to the trace). -/
theorem hydra_C2_theorem (K : Nat → Nat) (D : Mesh → Mesh) (s : BackendState)
    (h1 : s.deformation_graph_updates = none) (h2 : s.pose_graph_updates = none)
    (h3 : s.call_update_periodically = false) (h4 : s.loop_closures = []) :
    (runPgmoCycle K D s).2.ran_optimize = false ∧
    (runPgmoCycle K D s).1.solver_ops = s.solver_ops := by
  have hper : (refreshLoopClosureFlag
      (addInternalLCDToDeformationGraph K s).1).call_update_periodically = false := by
    rw [(refreshFlag_preserved _).2.2.2.1, (addInternalLCD_preserved K s).2.1, h3]
  have hops : (refreshLoopClosureFlag
      (addInternalLCDToDeformationGraph K s).1).solver_ops = s.solver_ops := by
    rw [(refreshFlag_preserved _).2.2.2.2, addInternalLCD_ops, h4]
    simp
  rw [runPgmoCycle_eq, drainGraphUpdates_none s h1 h2]
  show (cycleBranch D false
      (refreshLoopClosureFlag (addInternalLCDToDeformationGraph K s).1)).2 = false ∧
    (cycleBranch D false
      (refreshLoopClosureFlag (addInternalLCDToDeformationGraph K s).1)).1.solver_ops =
      s.solver_ops
  rw [cycleBranch_idle D _ hper]
  exact ⟨rfl, hops⟩

/-- Witness for the amended C2 at a concrete quiescent state. -/
theorem hydra_C2_witness :
    (runPgmoCycle id id exIdleC2).2.ran_optimize = false ∧
    (runPgmoCycle id id exIdleC2).1.solver_ops = exIdleC2.solver_ops :=
  hydra_C2_theorem id id exIdleC2 rfl rfl rfl rfl

/-- Claim C4: across all cycles, the loop-closure counter is monotonically
non-decreasing, increases each cycle by exactly the number of candidates
drained (the whole queue), equals, over any run, the initial count plus the
total number of candidates ever drained, and every drained candidate is
unconditionally added to the solver as a between-factor. -/
theorem hydra_C4_theorem (K : Nat → Nat) (D : Mesh → Mesh) (s : BackendState)
    (env : List CycleInput) :
    s.num_loop_closures ≤ (runPgmoCycle K D s).1.num_loop_closures ∧
    (runPgmoCycle K D s).1.num_loop_closures =
      s.num_loop_closures + (runPgmoCycle K D s).2.drained_lcs ∧
    (addInternalLCDToDeformationGraph K s).1.solver_ops =
      s.solver_ops ++ s.loop_closures.map
        (fun lc => SolverOp.betweenFactor (K lc.from_node) (K lc.to_node)) ∧
    (runCycles K D env (s, 0)).1.num_loop_closures =
      s.num_loop_closures + (runCycles K D env (s, 0)).2 := by
  refine ⟨?_, ?_, addInternalLCD_ops K s, ?_⟩
  · rw [runPgmoCycle_num]; omega
  · rw [runPgmoCycle_num]; rfl
  · have h := runCycles_num K D env (s, 0)
    simp only [] at h
    omega

/-- Claim C8: when the latest incoming mesh has zero vertices, the mesh update
consumes it (the new-mesh flag is cleared and a mesh-update record is made)
without invoking the solver's `deformMesh` (solver trace unchanged) and
without touching the private graph's mesh. -/
theorem hydra_C8_theorem (D : Mesh → Mesh) (s : BackendState) (m : Mesh)
    (h1 : s.latest_mesh = some m) (h2 : s.have_new_mesh = true)
    (h3 : m.vertex_count = 0) :
    (updateDsgMesh D s).solver_ops = s.solver_ops ∧
    (updateDsgMesh D s).dsg_mesh = s.dsg_mesh ∧
    (updateDsgMesh D s).have_new_mesh = false ∧
    (updateDsgMesh D s).mesh_update_records = s.mesh_update_records + 1 := by
  unfold updateDsgMesh
  rw [h1]
  simp [h2, h3]

/-- Witness for C8 at a concrete state holding a zero-vertex mesh. -/
theorem hydra_C8_witness :
    (updateDsgMesh id exEmptyMeshC8).solver_ops = exEmptyMeshC8.solver_ops ∧
    (updateDsgMesh id exEmptyMeshC8).dsg_mesh = exEmptyMeshC8.dsg_mesh ∧
    (updateDsgMesh id exEmptyMeshC8).have_new_mesh = false ∧
    (updateDsgMesh id exEmptyMeshC8).mesh_update_records =
      exEmptyMeshC8.mesh_update_records + 1 :=
  hydra_C8_theorem id exEmptyMeshC8 { vertex_count := 0, payload := 9 } rfl rfl rfl

/-- Claim C3: draining the pending accumulator returns exactly the
concatenation, in arrival order, of the nodes and of the edges of every
message ingested since the last drain, and leaves the accumulator empty, so
no update is drained twice or partially. -/
theorem hydra_C3_theorem (msgs : List PoseGraph) :
    accNodes (drain (ingestAll msgs none)).1 = (msgs.map PoseGraph.nodes).flatten ∧
    accEdges (drain (ingestAll msgs none)).1 = (msgs.map PoseGraph.edges).flatten ∧
    (drain (ingestAll msgs none)).2 = none :=
  ⟨ingestAll_nodes msgs, ingestAll_edges msgs, rfl⟩

/-- Claim C9: for a non-empty sequence of messages coalesced into the pending
accumulator, the accumulated header is that of the most recently ingested
message (last-writer-wins), while nodes and edges are the in-order
concatenation over all messages. -/
theorem hydra_C9_theorem (msgs : List PoseGraph) (hne : msgs ≠ []) :
    accHeader (ingestAll msgs none) = some (msgs.getLast hne).header ∧
    accNodes (ingestAll msgs none) = (msgs.map PoseGraph.nodes).flatten ∧
    accEdges (ingestAll msgs none) = (msgs.map PoseGraph.edges).flatten :=
  ⟨ingestAll_header msgs hne, ingestAll_nodes msgs, ingestAll_edges msgs⟩

/-- Witness for C9: two concrete messages; the accumulator ends with the
second message's header and the concatenated payloads. -/
theorem hydra_C9_witness :
    exMsgsC9 ≠ [] ∧
    accHeader (ingestAll exMsgsC9 none) = some 2 ∧
    accNodes (ingestAll exMsgsC9 none) = [10, 11, 12] ∧
    accEdges (ingestAll exMsgsC9 none) = [7] := by
  have h := hydra_C9_theorem exMsgsC9 (by decide)
  refine ⟨by decide, ?_, ?_, ?_⟩
  · rw [h.1]; rfl
  · rw [h.2.1]; rfl
  · rw [h.2.2]; rfl

lemma mem_insertNew (s : List Nat) (a b : Nat) :
    b ∈ insertNew s a ↔ b = a ∨ b ∈ s := by
  unfold insertNew
  by_cases h : a ∈ s
  · simp only [if_pos h]
    constructor
    · exact Or.inr
    · rintro (rfl | hb)
      · exact h
      · exact hb
  · simp [h, or_comm]

lemma mem_foldl_insertNew_fst (rooms : List (Nat × Vec3)) :
    ∀ (s : List Nat) (b : Nat),
      b ∈ rooms.foldl (fun cs p => insertNew cs p.1) s ↔
        b ∈ s ∨ b ∈ rooms.map Prod.fst := by
  induction rooms with
  | nil => intro s b; simp
  | cons p ps ih =>
      intro s b
      rw [List.foldl_cons, ih, mem_insertNew]
      simp only [List.map_cons, List.mem_cons]
      tauto

/-- Claim C5: after the building maintenance step, the building node exists
iff the rooms layer is non-empty; whenever it exists its position is the mean
of all room positions, and every room node is a child of the building node. -/
theorem hydra_C5_theorem (g : BuildingGraph) :
    ((updateBuildingNode g).building.isSome ↔ g.rooms ≠ []) ∧
    (∀ p, (updateBuildingNode g).building = some p → p = roomsMean g.rooms) ∧
    (∀ r ∈ g.rooms, r.1 ∈ (updateBuildingNode g).building_children) := by
  unfold updateBuildingNode
  by_cases h : g.rooms.isEmpty
  · have hnil : g.rooms = [] := List.isEmpty_iff.mp h
    simp [h, hnil]
  · have hne : g.rooms ≠ [] := fun hc => by simp [hc] at h
    refine ⟨by simp [h, hne], ?_, ?_⟩
    · intro p hp
      simp [h] at hp
      exact hp.symm
    · intro r hr
      rw [if_neg h]
      show r.1 ∈ g.rooms.foldl (fun cs p => insertNew cs p.1) g.building_children
      rw [mem_foldl_insertNew_fst]
      right
      exact List.mem_map_of_mem Prod.fst hr

/-- Witness for C5: with two concrete rooms the building node is created at
their mean position and both rooms become its children. -/
theorem hydra_C5_witness :
    ((updateBuildingNode exBuildGraphC5).building.isSome ↔ exBuildGraphC5.rooms ≠ []) ∧
    (updateBuildingNode exBuildGraphC5).building =
      some { x := 1, y := 0, z := 2 } ∧
    1 ∈ (updateBuildingNode exBuildGraphC5).building_children ∧
    2 ∈ (updateBuildingNode exBuildGraphC5).building_children := by
  have h := hydra_C5_theorem exBuildGraphC5
  refine ⟨h.1, ?_, ?_, ?_⟩
  · have hmean : roomsMean exBuildGraphC5.rooms = { x := 1, y := 0, z := 2 } := by
      simp [exBuildGraphC5, roomsMean, vecSum, Vec3.add, Vec3.zero, Vec3.divNat]
      norm_num
    cases hb : (updateBuildingNode exBuildGraphC5).building with
    | none =>
        have := h.1.mpr (by simp [exBuildGraphC5])
        rw [hb] at this
        simp at this
    | some p =>
        have hp := h.2.1 p hb
        rw [hp, hmean]
  · exact h.2.2 (1, { x := 0, y := 0, z := 0 }) (by simp [exBuildGraphC5])
  · exact h.2.2 (2, { x := 2, y := 0, z := 4 }) (by simp [exBuildGraphC5])

/-- Claim C10: `findBuildings` unconditionally creates the building node
`('B', 1)` and links every room as its child, including when the rooms layer
is empty, where the node is still created with the degenerate zero centroid —
unlike the incremental backend's exists-iff-rooms-non-empty behavior. -/
theorem hydra_C10_theorem (g : BatchSceneGraph) :
    batchBuildingId ∈ (findBuildings g).buildings.map Prod.fst ∧
    (∀ r ∈ g.rooms, (batchBuildingId, r.1) ∈ (findBuildings g).building_edges) ∧
    (g.rooms = [] → (batchBuildingId, Vec3.zero) ∈ (findBuildings g).buildings) ∧
    (g.rooms ≠ [] →
      (batchBuildingId, roomsMean g.rooms) ∈ (findBuildings g).buildings) := by
  unfold findBuildings
  refine ⟨by simp, ?_, ?_, ?_⟩
  · intro r hr
    simp only [List.mem_append]
    right
    exact List.mem_map_of_mem _ hr
  · intro h
    simp [h]
  · intro h
    have hempty : g.rooms.isEmpty = false := by
      cases hl : g.rooms with
      | nil => exact absurd hl h
      | cons a t => rfl
    simp [hempty]

/-- Witness for C10 at a graph whose rooms layer is empty: the building node
is still created, with the degenerate zero centroid. -/
theorem hydra_C10_witness :
    batchBuildingId ∈ (findBuildings exBatchEmptyC10).buildings.map Prod.fst ∧
    (batchBuildingId, Vec3.zero) ∈ (findBuildings exBatchEmptyC10).buildings :=
  ⟨(hydra_C10_theorem exBatchEmptyC10).1,
    (hydra_C10_theorem exBatchEmptyC10).2.2.1 rfl⟩

lemma placeStep_eq (mst : MstInfo) (acc : List TempOp) (n : PlaceNode) :
    placeStep mst acc n = acc ++ perPlaceOps mst n := by
  unfold placeStep perPlaceOps wantsValence
  cases hc : mst.leaves.contains n.id <;>
    cases he : n.pcl_mesh_connections.isEmpty <;> simp [hc, he]

lemma placesFold_eq (mst : MstInfo) (places : List PlaceNode) :
    ∀ acc : List TempOp,
      places.foldl (placeStep mst) acc = acc ++ (places.map (perPlaceOps mst)).flatten := by
  induction places with
  | nil => intro acc; simp
  | cons p ps ih =>
      intro acc
      rw [List.foldl_cons, placeStep_eq, ih]
      simp [List.append_assoc]

lemma addPlaces_eq (places : List PlaceNode) (mst : MstInfo) (ops : List TempOp)
    (hne : places ≠ []) :
    addPlacesToDeformationGraph places mst ops =
      ops ++ (TempOp.clearTemporaries ::
        ((places.map (perPlaceOps mst)).flatten ++
          mst.edges.map (fun e => TempOp.tempBetween e.1 e.2))) := by
  unfold addPlacesToDeformationGraph
  have hempty : places.isEmpty = false := by
    cases hl : places with
    | nil => exact absurd hl hne
    | cons a t => rfl
  rw [if_neg (by simp [hempty]), placesFold_eq]
  simp [List.append_assoc]

lemma filter_tempNode_flatten (mst : MstInfo) (places : List PlaceNode) :
    ((places.map (perPlaceOps mst)).flatten.filter isTempNodeOp) =
      places.map (fun n => TempOp.tempNode n.id) := by
  induction places with
  | nil => rfl
  | cons p ps ih =>
      simp only [List.map_cons, List.flatten_cons, List.filter_append, ih]
      unfold perPlaceOps
      cases hw : wantsValence mst p <;> simp [hw, isTempNodeOp]

lemma filter_valence_flatten (mst : MstInfo) (places : List PlaceNode) :
    ((places.map (perPlaceOps mst)).flatten.filter isValenceOp) =
      (places.filter (wantsValence mst)).map
        (fun n => TempOp.tempValence n.id n.pcl_mesh_connections) := by
  induction places with
  | nil => rfl
  | cons p ps ih =>
      simp only [List.map_cons, List.flatten_cons, List.filter_append, ih,
        List.filter_cons]
      unfold perPlaceOps
      cases hw : wantsValence mst p <;> simp [hw, isValenceOp]

lemma filter_between_flatten (mst : MstInfo) (places : List PlaceNode) :
    ((places.map (perPlaceOps mst)).flatten.filter isBetweenOp) = [] := by
  induction places with
  | nil => rfl
  | cons p ps ih =>
      simp only [List.map_cons, List.flatten_cons, List.filter_append, ih]
      unfold perPlaceOps
      cases hw : wantsValence mst p <;> simp [hw, isBetweenOp]

lemma filter_clear_cons (p : TempOp → Bool) (hp : p TempOp.clearTemporaries = false)
    (l : List TempOp) :
    (TempOp.clearTemporaries :: l).filter p = l.filter p := by
  simp [List.filter_cons, hp]

lemma filter_between_map_self (edges : List (Nat × Nat)) :
    ((edges.map (fun e => TempOp.tempBetween e.1 e.2)).filter isBetweenOp) =
      edges.map (fun e => TempOp.tempBetween e.1 e.2) := by
  induction edges with
  | nil => rfl
  | cons e es ih => simp [isBetweenOp, ih]

lemma filter_tempNode_map_between (edges : List (Nat × Nat)) :
    ((edges.map (fun e => TempOp.tempBetween e.1 e.2)).filter isTempNodeOp) = [] := by
  induction edges with
  | nil => rfl
  | cons e es ih => simp [isTempNodeOp, ih]

lemma filter_valence_map_between (edges : List (Nat × Nat)) :
    ((edges.map (fun e => TempOp.tempBetween e.1 e.2)).filter isValenceOp) = [] := by
  induction edges with
  | nil => rfl
  | cons e es ih => simp [isValenceOp, ih]

/-- Claim C6: when places are added to the deformation solver (non-empty
places snapshot), the first operation issued is the clearing of prior
temporary structures; exactly one temporary node is added per place node, in
snapshot order; temporary valence constraints are added exactly for the MST
leaves with non-empty mesh connections; and one temporary between-factor is
added per minimum-spanning-tree edge. -/
theorem hydra_C6_theorem (places : List PlaceNode) (mst : MstInfo) (ops : List TempOp)
    (hne : places ≠ []) :
    ((addPlacesToDeformationGraph places mst ops).drop ops.length).head? =
        some TempOp.clearTemporaries ∧
    ((addPlacesToDeformationGraph places mst ops).drop ops.length).filter
        isTempNodeOp = places.map (fun n => TempOp.tempNode n.id) ∧
    ((addPlacesToDeformationGraph places mst ops).drop ops.length).filter
        isValenceOp =
      (places.filter (wantsValence mst)).map
        (fun n => TempOp.tempValence n.id n.pcl_mesh_connections) ∧
    ((addPlacesToDeformationGraph places mst ops).drop ops.length).filter
        isBetweenOp = mst.edges.map (fun e => TempOp.tempBetween e.1 e.2) := by
  rw [addPlaces_eq places mst ops hne, List.drop_left]
  refine ⟨rfl, ?_, ?_, ?_⟩
  · rw [filter_clear_cons _ rfl, List.filter_append, filter_tempNode_flatten,
      filter_tempNode_map_between, List.append_nil]
  · rw [filter_clear_cons _ rfl, List.filter_append, filter_valence_flatten,
      filter_valence_map_between, List.append_nil]
  · rw [filter_clear_cons _ rfl, List.filter_append, filter_between_flatten,
      filter_between_map_self, List.nil_append]

/-- Witness for C6 at a concrete snapshot of three places and their MST. -/
theorem hydra_C6_witness :
    exPlacesC6 ≠ [] ∧
    (((addPlacesToDeformationGraph exPlacesC6 exMstC6 []).drop
        (List.length ([] : List TempOp))).head? = some TempOp.clearTemporaries ∧
      ((addPlacesToDeformationGraph exPlacesC6 exMstC6 []).drop
          (List.length ([] : List TempOp))).filter isTempNodeOp =
        exPlacesC6.map (fun n => TempOp.tempNode n.id) ∧
      ((addPlacesToDeformationGraph exPlacesC6 exMstC6 []).drop
          (List.length ([] : List TempOp))).filter isValenceOp =
        (exPlacesC6.filter (wantsValence exMstC6)).map
          (fun n => TempOp.tempValence n.id n.pcl_mesh_connections) ∧
      ((addPlacesToDeformationGraph exPlacesC6 exMstC6 []).drop
          (List.length ([] : List TempOp))).filter isBetweenOp =
        exMstC6.edges.map (fun e => TempOp.tempBetween e.1 e.2)) :=
  ⟨by decide, hydra_C6_theorem exPlacesC6 exMstC6 [] (by decide)⟩

lemma mem_foldl_insertNew (l : List Nat) :
    ∀ (s : List Nat) (b : Nat), b ∈ l.foldl insertNew s ↔ b ∈ s ∨ b ∈ l := by
  induction l with
  | nil => intro s b; simp
  | cons a rest ih =>
      intro s b
      rw [List.foldl_cons, ih, mem_insertNew]
      simp only [List.mem_cons]
      tauto

lemma mem_roomsFold (rooms : List RoomEntry) :
    ∀ (s : List Nat) (b : Nat),
      b ∈ rooms.foldl (fun acc r => r.children.foldl insertNew acc) s ↔
        b ∈ s ∨ ∃ r ∈ rooms, b ∈ r.children := by
  induction rooms with
  | nil => intro s b; simp
  | cons p ps ih =>
      intro s b
      rw [List.foldl_cons, ih, mem_foldl_insertNew]
      constructor
      · rintro ((hs | hp) | ⟨r, hr, hb⟩)
        · exact Or.inl hs
        · exact Or.inr ⟨p, List.mem_cons_self p ps, hp⟩
        · exact Or.inr ⟨r, List.mem_cons_of_mem p hr, hb⟩
      · rintro (hs | ⟨r, hr, hb⟩)
        · exact Or.inl (Or.inl hs)
        · rcases List.mem_cons.mp hr with rfl | hr2
          · exact Or.inl (Or.inr hb)
          · exact Or.inr ⟨r, hr2, hb⟩

lemma mem_foldl_insertNew_guard (P : Nat → Prop) [DecidablePred P] (l : List Nat) :
    ∀ (s : List Nat) (b : Nat),
      b ∈ l.foldl (fun acc n => if P n then insertNew acc n else acc) s ↔
        b ∈ s ∨ (b ∈ l ∧ P b) := by
  induction l with
  | nil => intro s b; simp
  | cons a rest ih =>
      intro s b
      rw [List.foldl_cons]
      by_cases hc : P a
      · rw [if_pos hc, ih, mem_insertNew]
        constructor
        · rintro ((rfl | hs) | ⟨hl, hcb⟩)
          · exact Or.inr ⟨List.mem_cons_self _ _, hc⟩
          · exact Or.inl hs
          · exact Or.inr ⟨List.mem_cons_of_mem a hl, hcb⟩
        · rintro (hs | ⟨hl, hcb⟩)
          · exact Or.inl (Or.inr hs)
          · rcases List.mem_cons.mp hl with rfl | hl2
            · exact Or.inl (Or.inl rfl)
            · exact Or.inr ⟨hl2, hcb⟩
      · rw [if_neg hc, ih]
        constructor
        · rintro (hs | ⟨hl, hcb⟩)
          · exact Or.inl hs
          · exact Or.inr ⟨List.mem_cons_of_mem a hl, hcb⟩
        · rintro (hs | ⟨hl, hcb⟩)
          · exact Or.inl hs
          · rcases List.mem_cons.mp hl with rfl | hl2
            · exact absurd hcb hc
            · exact Or.inr ⟨hl2, hcb⟩

lemma keepUnlabeled_iff (g : RoomDetectionGraph) (hu : (placeIds g).Nodup) (n : Nat) :
    keepUnlabeled g n = true ↔ ∃ p ∈ g.places, p.id = n ∧ p.parent = none := by
  cases hf : g.places.find? (fun p => p.id == n) with
  | none =>
      have hred : keepUnlabeled g n = false := by
        unfold keepUnlabeled
        rw [hf]
      rw [hred]
      simp only [Bool.false_eq_true, false_iff]
      rintro ⟨p, hp, hid, _⟩
      have hnone := List.find?_eq_none.mp hf p hp
      simp [hid] at hnone
  | some p =>
      have hred : keepUnlabeled g n = !p.parent.isSome := by
        unfold keepUnlabeled
        rw [hf]
      have hmem := List.mem_of_find?_eq_some hf
      have hid : p.id = n := by simpa using List.find?_some hf
      rw [hred]
      constructor
      · intro hkeep
        refine ⟨p, hmem, hid, ?_⟩
        cases hpar : p.parent with
        | none => rfl
        | some q => rw [hpar] at hkeep; simp at hkeep
      · rintro ⟨q, hqmem, hqid, hqpar⟩
        have hqp : q = p :=
          List.inj_on_of_nodup_map hu hqmem hmem (by rw [hqid, hid])
        subst hqp
        rw [hqpar]
        rfl

/-- Claim C7: the active place-node set handed to room clustering is exactly
the union of the children of all current room nodes, the newly activated
places, and the previously unlabeled places still present in the places
layer; and the persisted unlabeled set is exactly the active places still
present in the places layer that have no parent room, so an unassigned place
is retried next cycle and never dropped.  The hypothesis is the graph
invariant that place identifiers are unique. -/
theorem hydra_C7_theorem (g : RoomDetectionGraph)
    (latest_places unlabeled : List Nat) (x : Nat)
    (hu : (placeIds g).Nodup) :
    (x ∈ getNodesForRoomDetection g latest_places unlabeled ↔
      x ∈ latest_places ∨ (∃ r ∈ g.rooms, x ∈ r.children) ∨
        (x ∈ unlabeled ∧ x ∈ placeIds g)) ∧
    (x ∈ storeUnlabeledPlaces g (getNodesForRoomDetection g latest_places unlabeled) ↔
      x ∈ getNodesForRoomDetection g latest_places unlabeled ∧
        ∃ p ∈ g.places, p.id = x ∧ p.parent = none) := by
  constructor
  · unfold getNodesForRoomDetection
    rw [mem_foldl_insertNew_guard, mem_roomsFold, mem_foldl_insertNew]
    simp only [List.not_mem_nil, false_or]
    exact or_assoc
  · unfold storeUnlabeledPlaces
    rw [mem_foldl_insertNew_guard (fun n => keepUnlabeled g n = true)]
    simp only [List.not_mem_nil, false_or]
    rw [keepUnlabeled_iff g hu]

/-- Witness for C7: in the concrete graph, place 4 (still unassigned and
present in the places layer) is in the active set and is persisted as
unlabeled for the next cycle. -/
theorem hydra_C7_witness :
    (placeIds exRoomGraphC7).Nodup ∧
    ((4 ∈ getNodesForRoomDetection exRoomGraphC7 [3] [4, 9] ↔
        4 ∈ [3] ∨ (∃ r ∈ exRoomGraphC7.rooms, 4 ∈ r.children) ∨
          (4 ∈ [4, 9] ∧ 4 ∈ placeIds exRoomGraphC7)) ∧
      (4 ∈ storeUnlabeledPlaces exRoomGraphC7
            (getNodesForRoomDetection exRoomGraphC7 [3] [4, 9]) ↔
        4 ∈ getNodesForRoomDetection exRoomGraphC7 [3] [4, 9] ∧
          ∃ p ∈ exRoomGraphC7.places, p.id = 4 ∧ p.parent = none)) :=
  ⟨by decide, hydra_C7_theorem exRoomGraphC7 [3] [4, 9] 4 (by decide)⟩

end Hydra
